import Mathlib

/-!
Verification of the mailingset SMTP delivery pipeline
(`src/mailingset/service.py`) against its specification.

The Python source is shallowly embedded: configuration is a structure,
IPv4 addresses are naturals below 2^32, netaddr CIDR membership is prefix
comparison, `email.message.Message` is a list of (name, value) header pairs
with case-insensitive name matching, and the Twisted side effects (sendmail
invocations, log lines) are returned explicitly as data.
-/

namespace Mailingset

/-- An IPv4 network range, as produced by `netaddr.IPNetwork` from one entry
of the comma-separated `incoming.accept_from` CIDR list.  `addr` is the
network address as a natural number below 2^32 and `prefixLen` the prefix
length. -/
structure IPNetwork where
  addr : Nat
  prefixLen : Nat
deriving DecidableEq, Repr

/-- Membership of an IPv4 address in a network range, the semantics of
`client_ip in netaddr.IPNetwork(cidr)` in `validateFrom`: the address lies
between the network and broadcast addresses, i.e. the top `prefixLen` bits
agree with the network address. -/
def IPNetwork.contains (net : IPNetwork) (ip : Nat) : Bool :=
  ip / 2 ^ (32 - net.prefixLen) = net.addr / 2 ^ (32 - net.prefixLen)

/-- The configuration consumed by the service (`ConfigParser` keys).
`accept_from` is the parsed form of the comma-separated CIDR list
`incoming.accept_from`; `none` models the key being absent, in which case
`validateFrom` falls back to the string constant `'0.0.0.0/0'`.
`archive_addr` is `none` when `outgoing.archive_addr` is not configured. -/
structure Config where
  domain : String
  accept_from : Option (List IPNetwork)
  outgoing_server : String
  outgoing_port : Nat
  envelope_sender : String
  archive_addr : Option String

/-- The parse of the fallback string `'0.0.0.0/0'` in
`self.config.get('incoming', 'accept_from', fallback='0.0.0.0/0')`. -/
def defaultAcceptFrom : List IPNetwork := [⟨0, 0⟩]

/-- The allow-list `validateFrom` iterates over: the configured entries in
declared order, or the fallback when the key is absent. -/
def Config.acceptList (c : Config) : List IPNetwork :=
  c.accept_from.getD defaultAcceptFrom

/-- Outcome of `SetMessageDelivery.validateFrom`: either the origin is
returned (accepting the MAIL FROM), remembering which range matched first,
or `smtp.SMTPBadSender(helo[1])` is raised carrying the client IP. -/
inductive FromResult where
  | accepted (origin : String) (matched : IPNetwork)
  | rejected (clientIP : Nat)
deriving DecidableEq

def FromResult.isAccepted : FromResult → Bool
  | .accepted _ _ => true
  | .rejected _ => false

/-- The `for cidr in good.split(','):` loop of `validateFrom`: return the
origin on the first range containing the client IP, otherwise raise
`SMTPBadSender`. -/
def validateFromList (ranges : List IPNetwork) (clientIP : Nat)
    (origin : String) : FromResult :=
  match ranges with
  | [] => .rejected clientIP
  | net :: rest =>
      if net.contains clientIP then .accepted origin net
      else validateFromList rest clientIP origin

/-- `SetMessageDelivery.validateFrom` (service.py lines 127-154), with the
client IP taken from `helo[1]` already decoded to a numeric address. -/
def validateFrom (c : Config) (clientIP : Nat) (origin : String) : FromResult :=
  validateFromList c.acceptList clientIP origin

/-- The external resolver interface: `self.parse` takes the local part of a
recipient address and either returns a pair of subject tag and recipient
address set, or raises a `SyntaxError` carrying a message string. -/
def Resolver : Type := String → Except String (String × Finset String)

/-- Outcome of `SetMessageDelivery.validateTo`: either the deferred
constructor is returned, capturing the resolved (subject tag, recipient
set) for the recipient, or `smtp.SMTPBadRcpt(user, resp=reason)` is raised
with the given reason string. -/
inductive ToResult where
  | accepted (subjectTag : String) (recipientSet : Finset String)
  | rejected (reason : String)
deriving DecidableEq

/-- `SetMessageDelivery.validateTo` (service.py lines 156-193): reject when
the recipient domain differs from `incoming.domain` with reason
`'Incorrect domain: %s' % (domain,)`; otherwise ask the resolver to parse
the local part, rejecting with `str(error)` on a parse error and accepting
with the resolved tag and set on success. -/
def validateTo (c : Config) (parse : Resolver) (localPart domain : String) :
    ToResult :=
  if domain ≠ c.domain then
    .rejected ("Incorrect domain: " ++ domain)
  else
    match parse localPart with
    | .error e => .rejected e
    | .ok (subjectTag, recipientSet) => .accepted subjectTag recipientSet

/-- A resolver used by concrete counterexamples/witnesses: accepts every
local part with an empty recipient set. -/
def trivialResolver : Resolver := fun localPart => .ok (localPart, ∅)

/-- A concrete configuration used by counterexamples/witnesses. -/
def exampleConfig : Config :=
  ⟨"lists.example.com", some [⟨167772160, 8⟩], "smtp.x", 25,
    "bounce@lists.example.com", none⟩

/-- ASCII lowercasing of one character, the effect of Python `str.lower()`
on header names. -/
def lowerChar (c : Char) : Char :=
  if 65 <= c.toNat && c.toNat <= 90 then Char.ofNat (c.toNat + 32) else c

/-- ASCII lowercasing of a header name, used for the case-insensitive
header-name matching of the Python `email` library. -/
def lowerName (s : String) : String :=
  ⟨s.data.map lowerChar⟩

/-- An `email.message.Message`: an ordered list of (name, value) header
pairs, plus the body lines.  Header-name matching is case-insensitive, as
in the Python `email` library. -/
structure Msg where
  headers : List (String × String)
  body : List String
deriving DecidableEq

/-- All values of headers with the given name (`msg.get_all(name)`),
matching names case-insensitively. -/
def Msg.getAll (m : Msg) (name : String) : List String :=
  (m.headers.filter (fun h => lowerName h.1 == lowerName name)).map Prod.snd

/-- The value of the first header with the given name (`msg[name]`),
or `none`. -/
def Msg.get (m : Msg) (name : String) : Option String :=
  (m.getAll name).head?

/-- `name in msg`: whether a header with the given name exists. -/
def Msg.hasHeader (m : Msg) (name : String) : Bool :=
  m.headers.any (fun h => lowerName h.1 == lowerName name)

/-- `del msg[name]`: remove every header whose name matches. -/
def Msg.delete (m : Msg) (name : String) : Msg :=
  ⟨m.headers.filter (fun h => !(lowerName h.1 == lowerName name)), m.body⟩

/-- `msg[name] = value`: append a header (the Python `email` library
appends on assignment). -/
def Msg.add (m : Msg) (name value : String) : Msg :=
  ⟨m.headers ++ [(name, value)], m.body⟩

/-- Replace the value of the named header by deleting all occurrences and
appending one with the new value. -/
def Msg.setHeader (m : Msg) (name value : String) : Msg :=
  (m.delete name).add name value

/-- Python `s.startswith(p)`, via the underlying character lists. -/
def strStartsWith (p s : String) : Bool :=
  p.data.isPrefixOf s.data

/-- Modelled from the spec: `mailman.subject_prefix.SubjectPrefix.process`
is repository code that is not present under `src/`; only its call site in
`SetMessage._munge_header` is.  Per the spec it prepends `tag` (already of
the form `"[<subjectTag>] "`) to the Subject header unless the Subject
already starts with that exact bracketed tag, and when encoding the new
value fails it raises, which the caller catches and recovers from by
keeping the original Subject.  `enc` models the header encoder: `none`
means the encoding of the new value fails. -/
def subjectPrefixProcess (enc : String → Option String) (tag : String)
    (m : Msg) : Except Unit Msg :=
  let old := (m.get "Subject").getD ""
  if strStartsWith tag old then .ok m
  else
    match enc (tag ++ old) with
    | none => .error ()
    | some v => .ok (m.setHeader "Subject" v)

/-- `SetMessage._munge_header` (service.py lines 279-301): try to prepend
the subject tag, swallowing encoding errors; set Precedence to `list` only
when absent; delete all `list-id` headers and set one `List-Id`; delete all
`list-post` headers and set one `List-Post`. -/
def mungeHeader (enc : String → Option String) (cfg : Config)
    (subject_tag address : String) (m : Msg) : Msg :=
  let tag := "[" ++ subject_tag ++ "] "
  let m1 :=
    match subjectPrefixProcess enc tag m with
    | .ok mtagged => mtagged
    | .error _ => m
  let m2 := if m1.hasHeader "precedence" then m1 else m1.add "Precedence" "list"
  let m3 := (m2.delete "list-id").add "List-Id"
      ("<" ++ address ++ ".mailingset." ++ cfg.domain ++ ">")
  (m3.delete "list-post").add "List-Post"
      ("<mailto:" ++ address ++ "@" ++ cfg.domain ++ ">")

/-- One invocation of the outbound-send collaborator, the arguments of
`self.sendmail(outgoing_server, envelope_sender, recp, msg.as_string(),
port=outgoing_port)`. -/
structure SendCall where
  server : String
  sender : String
  recipients : Finset String
  messageText : String
  port : Nat
deriving DecidableEq

/-- The heap of mutable Python set objects: `recipient_set` is passed into
`SetMessage.__init__` by reference, so in-place updates (`recp |= ...`) are
visible through every alias.  A cell is addressed by a natural number. -/
structure Store where
  sets : Nat -> Finset String

def Store.get (st : Store) (r : Nat) : Finset String := st.sets r

def Store.set (st : Store) (r : Nat) (v : Finset String) : Store :=
  Store.mk (fun q => if q = r then v else st.sets q)

/-- The state of one `SetMessage` accumulator.  `msgParser` models
`self.msg_parser`: the text fed so far, or `none` once the field has been
set to `None` (after close or connection loss).  `recipientRef` is the
reference to the recipient-set object supplied at construction. -/
structure SetMsgState where
  address : String
  subject_tag : String
  recipientRef : Nat
  msgParser : Option String

/-- `SetMessage.__init__` (service.py lines 199-218): store the address,
subject tag and recipient-set reference, and allocate a fresh empty feed
buffer. -/
def SetMessage.init (address subject_tag : String) (recipientRef : Nat) :
    SetMsgState :=
  SetMsgState.mk address subject_tag recipientRef (some "")

/-- `SetMessage.lineReceived` (service.py lines 220-229): feed the line and
a newline terminator to the incremental message buffer.  It invokes no
outbound send, which the empty second component records. -/
def lineReceived (s : SetMsgState) (line : String) :
    SetMsgState × List SendCall :=
  (SetMsgState.mk s.address s.subject_tag s.recipientRef
    (s.msgParser.map (fun b => b ++ line ++ "\n")), [])

/-- Feed a whole sequence of lines, collecting every outbound send issued
along the way. -/
def runLines (s : SetMsgState) : List String -> SetMsgState × List SendCall
  | [] => (s, [])
  | l :: ls =>
      let r1 := lineReceived s l
      let r2 := runLines r1.1 ls
      (r2.1, r1.2 ++ r2.2)

/-- `SetMessage.connectionLost` (service.py lines 271-277): log an error
and drop the buffered state.  The result is (new state, outbound sends
issued, log lines); the send list is empty because the method only logs
and clears `self.msg_parser`. -/
def connectionLost (s : SetMsgState) :
    SetMsgState × List SendCall × List String :=
  (SetMsgState.mk s.address s.subject_tag s.recipientRef none, [],
   ["Connection lost " ++ s.address])

/-- Split a header line at the first `": "` separator, as a model of the
header parsing done by `email.parser.FeedParser`. -/
def parseHeaderLine (l : String) : String × String :=
  match l.splitOn ": " with
  | [] => (l, "")
  | name :: rest => (name, String.intercalate ": " rest)

/-- A model of `email.parser.FeedParser().close()` applied to the text fed
so far: header lines up to the first blank line, then the body lines. -/
def parseMessage (text : String) : Msg :=
  let lines := text.splitOn "\n"
  Msg.mk ((lines.takeWhile (fun l => l != "")).map parseHeaderLine)
    ((lines.dropWhile (fun l => l != "")).drop 1)

/-- `msg.as_string()`: serialize headers, a blank separator line, and the
body. -/
def Msg.asString (m : Msg) : String :=
  String.intercalate "\n" (m.headers.map (fun h => h.1 ++ ": " ++ h.2)) ++
    "\n\n" ++ String.intercalate "\n" m.body

/-- Everything `SetMessage.eomReceived` produces: the successor state, the
heap after the in-place recipient-set update, the sendmail invocations and
the log lines. -/
structure EomResult where
  state : SetMsgState
  store : Store
  sends : List SendCall
  logs : List String

/-- `SetMessage.eomReceived` (service.py lines 231-269): close the buffer
into a message, rewrite its headers, union the archive address into the
recipient set in place when configured (`recp |= ...` mutates the set
object behind `recipientRef`), and call sendmail exactly once.  `enc`
models the header encoder used during subject tagging. -/
def eomReceived (cfg : Config) (enc : String -> Option String)
    (s : SetMsgState) (store : Store) : EomResult :=
  let msg := parseMessage (s.msgParser.getD "")
  let s2 := SetMsgState.mk s.address s.subject_tag s.recipientRef none
  let msg2 := mungeHeader enc cfg s.subject_tag s.address msg
  let recp : Finset String :=
    match cfg.archive_addr with
    | some archive => store.get s.recipientRef ∪ {archive}
    | none => store.get s.recipientRef
  let store2 : Store :=
    match cfg.archive_addr with
    | some _ => store.set s.recipientRef recp
    | none => store
  EomResult.mk s2 store2
    [SendCall.mk cfg.outgoing_server cfg.envelope_sender recp
      msg2.asString cfg.outgoing_port]
    ["Subject: " ++ (msg2.get "Subject").getD "None",
     "Sending to: " ++ String.intercalate ", " (recp.sort (· ≤ ·))]

/-- A concrete configuration with an archive address, used by the dispatch
examples. -/
def archiveConfig : Config :=
  Config.mk "x.com" none "smtp.x.com" 25 "bounce@x.com" (some "archive@x.com")

/-- A heap whose cell 0 holds the resolved recipient set of the dispatch
examples. -/
def exampleStore : Store := Store.mk (fun _ => {"a@x.com", "b@x.com"})

theorem validateFromList_isAccepted_eq_any (ranges : List IPNetwork)
    (clientIP : Nat) (origin : String) :
    (validateFromList ranges clientIP origin).isAccepted =
      ranges.any (fun net => net.contains clientIP) := by
  induction ranges with
  | nil => rfl
  | cons net rest ih =>
      simp only [validateFromList, List.any_cons]
      by_cases h : net.contains clientIP = true
      · simp [h, FromResult.isAccepted]
      · simp only [Bool.not_eq_true] at h
        simp [h, ih]

/-- C1: sender validation accepts iff the client IP is a member of at least
one range of the allow-list, and the declared order of the entries never
affects the accept/reject outcome (only which range is recorded as the
first match). -/
theorem validateFrom_accept_iff_mem (c : Config) (clientIP : Nat)
    (origin : String) :
    ((validateFrom c clientIP origin).isAccepted = true ↔
      ∃ net ∈ c.acceptList, net.contains clientIP = true) ∧
    ∀ r₁ r₂ : List IPNetwork, r₁.Perm r₂ →
      (validateFromList r₁ clientIP origin).isAccepted =
        (validateFromList r₂ clientIP origin).isAccepted := by
  constructor
  · rw [validateFrom, validateFromList_isAccepted_eq_any, List.any_eq_true]
  · intro r₁ r₂ hperm
    rw [validateFromList_isAccepted_eq_any, validateFromList_isAccepted_eq_any]
    have hbool : ∀ b₁ b₂ : Bool, (b₁ = true ↔ b₂ = true) → b₁ = b₂ := by decide
    apply hbool
    rw [List.any_eq_true, List.any_eq_true]
    constructor
    · rintro ⟨net, hmem, hc⟩
      exact ⟨net, hperm.mem_iff.mp hmem, hc⟩
    · rintro ⟨net, hmem, hc⟩
      exact ⟨net, hperm.mem_iff.mpr hmem, hc⟩

/-- Witness for C1 at a concrete allow-list, client IP and permutation. -/
theorem validateFrom_accept_iff_mem_witness :
    ((validateFrom ⟨"x", some [⟨167772160, 8⟩], "s", 25, "e", none⟩
        167837955 "a@b").isAccepted = true ↔
      ∃ net ∈ Config.acceptList ⟨"x", some [⟨167772160, 8⟩], "s", 25, "e", none⟩,
        net.contains 167837955 = true) ∧
    (validateFromList [⟨167772160, 8⟩, ⟨0, 0⟩] 167837955 "a@b").isAccepted =
      (validateFromList [⟨0, 0⟩, ⟨167772160, 8⟩] 167837955 "a@b").isAccepted := by
  have h := validateFrom_accept_iff_mem
      ⟨"x", some [⟨167772160, 8⟩], "s", 25, "e", none⟩ 167837955 "a@b"
  exact ⟨h.1, h.2 [⟨167772160, 8⟩, ⟨0, 0⟩] [⟨0, 0⟩, ⟨167772160, 8⟩]
    (List.Perm.swap _ _ _)⟩

/-- C9: with `incoming.accept_from` absent the fallback allow-list
`0.0.0.0/0` matches every IPv4 address, so `validateFrom` accepts every
client IP. -/
theorem validateFrom_default_accepts_all (c : Config) (clientIP : Nat)
    (origin : String) (habs : c.accept_from = none)
    (hip : clientIP < 2 ^ 32) :
    validateFrom c clientIP origin = .accepted origin ⟨0, 0⟩ := by
  have hlist : c.acceptList = [⟨0, 0⟩] := by
    rw [Config.acceptList, habs]
    rfl
  have hcontains : IPNetwork.contains ⟨0, 0⟩ clientIP = true := by
    have h32 : clientIP < 4294967296 := by norm_num at hip; exact hip
    rw [IPNetwork.contains]
    simp [Nat.div_eq_of_lt h32]
  rw [validateFrom, hlist, validateFromList, if_pos hcontains]

/-- Witness for C9 at a concrete configuration and client IP. -/
theorem validateFrom_default_accepts_all_witness :
    validateFrom ⟨"lists.example.com", none, "smtp.x", 25, "e@x", none⟩
        3232235777 "sender@y" = .accepted "sender@y" ⟨0, 0⟩ :=
  validateFrom_default_accepts_all _ _ _ rfl (by norm_num)

/-- Counterexample to C3 as stated: on a domain mismatch the rejection
reason is not the literal string `"incorrect domain"`. -/
theorem validateTo_wrong_domain_reason_counterexample :
    validateTo exampleConfig trivialResolver "a" "other.com" ≠
      ToResult.rejected "incorrect domain" ∧
    validateTo exampleConfig trivialResolver "a" "other.com" =
      ToResult.rejected "Incorrect domain: other.com" := by
  constructor
  · decide
  · decide

/-- C3 (amended): for every recipient whose domain is not exactly equal to
the configured `incoming.domain`, `validateTo` rejects with reason
`"Incorrect domain: "` followed by the offered domain, and the outcome is
independent of the local part and of the resolver, which is never
consulted. -/
theorem validateTo_wrong_domain_rejects (c : Config) (parse : Resolver)
    (localPart domain : String) (hdom : domain ≠ c.domain) :
    validateTo c parse localPart domain =
      ToResult.rejected ("Incorrect domain: " ++ domain) ∧
    ∀ (parse' : Resolver) (local' : String),
      validateTo c parse localPart domain = validateTo c parse' local' domain := by
  constructor
  · rw [validateTo, if_pos hdom]
  · intro parse' local'
    rw [validateTo, if_pos hdom, validateTo, if_pos hdom]

/-- Witness for C3 (amended) at a concrete configuration and recipient. -/
theorem validateTo_wrong_domain_rejects_witness :
    validateTo exampleConfig trivialResolver "a" "other.com" =
      ToResult.rejected ("Incorrect domain: " ++ "other.com") ∧
    validateTo exampleConfig trivialResolver "a" "other.com" =
      validateTo exampleConfig (fun _ => .error "boom") "b" "other.com" := by
  have h := validateTo_wrong_domain_rejects exampleConfig trivialResolver
      "a" "other.com" (by decide)
  exact ⟨h.1, h.2 (fun _ => .error "boom") "b"⟩

/-- C7: when the domain matches but the resolver fails with a parse error,
`validateTo` rejects with the resolver's error message verbatim. -/
theorem validateTo_parse_error_verbatim (c : Config) (parse : Resolver)
    (localPart domain msg : String) (hdom : domain = c.domain)
    (herr : parse localPart = .error msg) :
    validateTo c parse localPart domain = ToResult.rejected msg := by
  rw [validateTo, if_neg (by simp [hdom]), herr]

/-- Witness for C7: the resolver fails on local part `"a&&b"` and the
rejection reason equals the resolver's message character for character. -/
theorem validateTo_parse_error_verbatim_witness :
    validateTo exampleConfig
        (fun localPart =>
          if localPart = "a&&b" then .error "Invalid set expression: a&&b"
          else .ok (localPart, ∅))
        "a&&b" "lists.example.com" =
      ToResult.rejected "Invalid set expression: a&&b" :=
  validateTo_parse_error_verbatim exampleConfig _ "a&&b" "lists.example.com"
    "Invalid set expression: a&&b" rfl rfl

theorem getAll_add_ne (m : Msg) (n n' v : String)
    (h : (lowerName n' == lowerName n) = false) :
    (m.add n' v).getAll n = m.getAll n := by
  rw [Msg.getAll, Msg.add, Msg.getAll]
  simp only [List.filter_append, List.map_append]
  rw [List.filter_cons, List.filter_nil]
  simp [h]

theorem getAll_delete_ne (m : Msg) (n n' : String)
    (h : ∀ s : String, (s == lowerName n) = true → (s == lowerName n') = false) :
    (m.delete n').getAll n = m.getAll n := by
  rw [Msg.getAll, Msg.delete, Msg.getAll]
  simp only [List.filter_filter]
  congr 1
  apply List.filter_congr
  intro a _
  by_cases ha : (lowerName a.1 == lowerName n) = true
  · have hne := h (lowerName a.1) ha
    simp [ha, hne]
  · simp only [Bool.not_eq_true] at ha
    simp [ha]

theorem getAll_delete_add (m : Msg) (nd na n v : String)
    (hd : ∀ s : String, (s == lowerName n) = true → (s == lowerName nd) = true)
    (ha : (lowerName na == lowerName n) = true) :
    ((m.delete nd).add na v).getAll n = [v] := by
  rw [Msg.add, Msg.delete, Msg.getAll]
  simp only [List.filter_append, List.map_append, List.filter_filter]
  rw [List.filter_cons, List.filter_nil]
  simp only [ha, if_pos]
  have hnil :
      (m.headers.filter (fun a => lowerName a.1 == lowerName n &&
        !(lowerName a.1 == lowerName nd))) = [] := by
    apply List.filter_eq_nil_iff.mpr
    intro a _
    by_cases hm : (lowerName a.1 == lowerName n) = true
    · have := hd (lowerName a.1) hm
      simp [hm, this]
    · simp only [Bool.not_eq_true] at hm
      simp [hm]
  rw [hnil]
  rfl

theorem getAll_add_same (m : Msg) (n n' v : String)
    (h : (lowerName n' == lowerName n) = true) :
    (m.add n' v).getAll n = m.getAll n ++ [v] := by
  rw [Msg.getAll, Msg.add, Msg.getAll]
  simp only [List.filter_append, List.map_append]
  rw [List.filter_cons, List.filter_nil]
  simp [h]

theorem getAll_of_hasHeader_false (m : Msg) (n : String)
    (h : m.hasHeader n = false) :
    m.getAll n = [] := by
  rw [Msg.hasHeader, List.any_eq_false] at h
  rw [Msg.getAll]
  have : m.headers.filter (fun a => lowerName a.1 == lowerName n) = [] := by
    apply List.filter_eq_nil_iff.mpr
    intro a ha
    simpa using h a ha
  rw [this]
  rfl

theorem mungeHeader_getAll_listid (enc : String → Option String)
    (cfg : Config) (t a : String) (m : Msg) :
    (mungeHeader enc cfg t a m).getAll "List-Id" =
      ["<" ++ a ++ ".mailingset." ++ cfg.domain ++ ">"] := by
  rw [mungeHeader]
  rw [getAll_add_ne _ _ _ _ (by decide)]
  rw [getAll_delete_ne]
  · exact getAll_delete_add _ _ _ _ _ (fun s hs => hs) (by decide)
  · intro s hs
    rw [beq_iff_eq] at hs
    subst hs
    decide

theorem mungeHeader_getAll_listpost (enc : String → Option String)
    (cfg : Config) (t a : String) (m : Msg) :
    (mungeHeader enc cfg t a m).getAll "List-Post" =
      ["<mailto:" ++ a ++ "@" ++ cfg.domain ++ ">"] := by
  rw [mungeHeader]
  exact getAll_delete_add _ _ _ _ _ (fun s hs => hs) (by decide)

/-- C4: after the header rewrite, exactly one List-Id header and exactly
one List-Post header exist, with the values built from the recipient
address and the configured domain, regardless of how many such headers the
message carried before; in particular rewriting twice leaves exactly one
of each, reflecting the latest rewrite. -/
theorem mungeHeader_unique_list_headers (enc : String → Option String)
    (cfg : Config) (t a : String) (m : Msg) :
    (mungeHeader enc cfg t a m).getAll "List-Id" =
      ["<" ++ a ++ ".mailingset." ++ cfg.domain ++ ">"] ∧
    (mungeHeader enc cfg t a m).getAll "List-Post" =
      ["<mailto:" ++ a ++ "@" ++ cfg.domain ++ ">"] ∧
    (mungeHeader enc cfg t a (mungeHeader enc cfg t a m)).getAll "List-Id" =
      ["<" ++ a ++ ".mailingset." ++ cfg.domain ++ ">"] ∧
    (mungeHeader enc cfg t a (mungeHeader enc cfg t a m)).getAll "List-Post" =
      ["<mailto:" ++ a ++ "@" ++ cfg.domain ++ ">"] :=
  ⟨mungeHeader_getAll_listid enc cfg t a m,
   mungeHeader_getAll_listpost enc cfg t a m,
   mungeHeader_getAll_listid enc cfg t a _,
   mungeHeader_getAll_listpost enc cfg t a _⟩

theorem runLines_no_sends (lines : List String) (s : SetMsgState) :
    (runLines s lines).2 = [] ∧ (runLines s lines).1.address = s.address := by
  induction lines generalizing s with
  | nil => exact ⟨rfl, rfl⟩
  | cons l ls ih =>
      rw [runLines]
      obtain ⟨h1, h2⟩ := ih (lineReceived s l).1
      exact ⟨by rw [h1]; rfl, h2⟩

/-- C2: an accumulator that has received any number of lines and then
loses the connection before end-of-message issues no sendmail call at all,
drops the buffered state, and logs an error. -/
theorem connectionLost_never_sends (s : SetMsgState) (lines : List String) :
    (runLines s lines).2 ++ (connectionLost (runLines s lines).1).2.1 = [] ∧
    (connectionLost (runLines s lines).1).1.msgParser = none ∧
    (connectionLost (runLines s lines).1).2.2 =
      ["Connection lost " ++ s.address] := by
  obtain ⟨h1, h2⟩ := runLines_no_sends lines s
  refine ⟨by rw [h1]; rfl, rfl, ?_⟩
  rw [connectionLost, h2]

/-- C5: the recipient set handed to sendmail is the resolved set unioned
with the archive address when one is configured, and the resolved set
itself otherwise; concretely, archive `archive@x.com` over
`{a@x.com, b@x.com}` dispatches exactly 3 recipients including the
archive address. -/
theorem eomReceived_recipient_finalization (cfg : Config)
    (enc : String → Option String) (s : SetMsgState) (store : Store) :
    (∀ archive : String, cfg.archive_addr = some archive →
      (eomReceived cfg enc s store).sends.map SendCall.recipients =
        [store.get s.recipientRef ∪ {archive}]) ∧
    (cfg.archive_addr = none →
      (eomReceived cfg enc s store).sends.map SendCall.recipients =
        [store.get s.recipientRef]) ∧
    ((eomReceived archiveConfig enc (SetMessage.init "a+b" "a+b" 0)
        exampleStore).sends.map SendCall.recipients =
      [{"a@x.com", "b@x.com", "archive@x.com"}] ∧
    ({"a@x.com", "b@x.com", "archive@x.com"} : Finset String).card = 3 ∧
    "archive@x.com" ∈
      ({"a@x.com", "b@x.com", "archive@x.com"} : Finset String)) := by
  have hgen : ∀ (cfg2 : Config) (s2 : SetMsgState) (store2 : Store)
      (archive : String), cfg2.archive_addr = some archive →
      (eomReceived cfg2 enc s2 store2).sends.map SendCall.recipients =
        [store2.get s2.recipientRef ∪ {archive}] := by
    intro cfg2 s2 store2 archive harch
    simp [eomReceived, harch]
  refine ⟨fun archive harch => hgen cfg s store archive harch,
    fun hnone => ?_, ?_, ?_, ?_⟩
  · simp [eomReceived, hnone]
  · rw [hgen archiveConfig (SetMessage.init "a+b" "a+b" 0) exampleStore
      "archive@x.com" rfl]
    decide
  · decide
  · decide

/-- C10: dispatch mutates the recipient-set object in place: after
`eomReceived` with an archive address configured, the heap cell supplied
at construction (and so every alias of it) permanently contains the
archive address, and the dispatched set is exactly that cell's new
value — the set is never copied before finalization. -/
theorem eomReceived_mutates_in_place (cfg : Config)
    (enc : String → Option String) (s : SetMsgState) (store : Store)
    (archive : String) (h : cfg.archive_addr = some archive) :
    (eomReceived cfg enc s store).store.get s.recipientRef =
      store.get s.recipientRef ∪ {archive} ∧
    archive ∈ (eomReceived cfg enc s store).store.get s.recipientRef ∧
    (eomReceived cfg enc s store).sends.map SendCall.recipients =
      [(eomReceived cfg enc s store).store.get s.recipientRef] := by
  have hget : (eomReceived cfg enc s store).store.get s.recipientRef =
      store.get s.recipientRef ∪ {archive} := by
    simp [eomReceived, h, Store.set, Store.get]
  refine ⟨hget, ?_, ?_⟩
  · rw [hget]
    simp
  · rw [hget]
    simp [eomReceived, h]

/-- Witness for C10 at a concrete configuration, accumulator and heap. -/
theorem eomReceived_mutates_in_place_witness :
    (eomReceived archiveConfig Option.some (SetMessage.init "a+b" "a+b" 0)
        exampleStore).store.get (SetMessage.init "a+b" "a+b" 0).recipientRef =
      exampleStore.get (SetMessage.init "a+b" "a+b" 0).recipientRef ∪
        {"archive@x.com"} ∧
    "archive@x.com" ∈
      (eomReceived archiveConfig Option.some (SetMessage.init "a+b" "a+b" 0)
        exampleStore).store.get (SetMessage.init "a+b" "a+b" 0).recipientRef ∧
    (eomReceived archiveConfig Option.some (SetMessage.init "a+b" "a+b" 0)
        exampleStore).sends.map SendCall.recipients =
      [(eomReceived archiveConfig Option.some (SetMessage.init "a+b" "a+b" 0)
        exampleStore).store.get (SetMessage.init "a+b" "a+b" 0).recipientRef] :=
  eomReceived_mutates_in_place archiveConfig Option.some
    (SetMessage.init "a+b" "a+b" 0) exampleStore "archive@x.com" rfl

theorem get_eq_of_getAll_eq {m m' : Msg} {n : String}
    (h : m.getAll n = m'.getAll n) : m.get n = m'.get n := by
  rw [Msg.get, Msg.get, h]

theorem getAll_listops (x : Msg) (n v w : String)
    (h1 : (lowerName "List-Post" == lowerName n) = false)
    (h2 : ∀ s : String, (s == lowerName n) = true →
      (s == lowerName "list-post") = false)
    (h3 : (lowerName "List-Id" == lowerName n) = false)
    (h4 : ∀ s : String, (s == lowerName n) = true →
      (s == lowerName "list-id") = false) :
    ((((x.delete "list-id").add "List-Id" v).delete "list-post").add
      "List-Post" w).getAll n = x.getAll n := by
  rw [getAll_add_ne _ _ _ _ h1, getAll_delete_ne _ _ _ h2,
    getAll_add_ne _ _ _ _ h3, getAll_delete_ne _ _ _ h4]

theorem getAll_precstep (x : Msg) (n : String)
    (h : (lowerName "Precedence" == lowerName n) = false) :
    (if x.hasHeader "precedence" then x
     else x.add "Precedence" "list").getAll n = x.getAll n := by
  by_cases hp : x.hasHeader "precedence" = true
  · rw [if_pos hp]
  · rw [if_neg hp, getAll_add_ne _ _ _ _ h]

theorem get_setHeader_subject (m : Msg) (v : String) :
    (m.setHeader "Subject" v).get "Subject" = some v := by
  rw [Msg.get, Msg.setHeader,
    getAll_delete_add _ _ _ _ _ (fun s hs => hs) (by decide)]
  rfl

theorem strStartsWith_append (p s : String) :
    strStartsWith p (p ++ s) = true := by
  rw [strStartsWith, String.data_append]
  exact List.isPrefixOf_iff_prefix.mpr (List.prefix_append _ _)

theorem strStartsWith_bracket_empty (t : String) :
    strStartsWith ("[" ++ t ++ "] ") "" = false := by
  rw [strStartsWith, String.data_append, String.data_append]
  rfl

/-- The Precedence/List-Id/List-Post mutations of `_munge_header` never
touch the Subject header: the rewritten message's Subject is whatever the
subject-tagging step produced. -/
theorem mungeHeader_get_subject (enc : String → Option String) (cfg : Config)
    (t a : String) (m : Msg) :
    (mungeHeader enc cfg t a m).get "Subject" =
      (match subjectPrefixProcess enc ("[" ++ t ++ "] ") m with
        | .ok mtagged => mtagged
        | .error _ => m).get "Subject" := by
  simp only [mungeHeader]
  apply get_eq_of_getAll_eq
  rw [getAll_listops _ _ _ _ (by decide)
    (fun s hs => by rw [beq_iff_eq] at hs; subst hs; decide) (by decide)
    (fun s hs => by rw [beq_iff_eq] at hs; subst hs; decide)]
  rw [getAll_precstep _ _ (by decide)]

/-- Characterization of the Subject header after the rewrite when the
encoder succeeds on every value: the bracketed tag is prepended unless the
Subject already starts with it. -/
theorem mungeHeader_some_get_subject (cfg : Config) (t a : String)
    (m : Msg) :
    (mungeHeader Option.some cfg t a m).get "Subject" =
      (if strStartsWith ("[" ++ t ++ "] ") ((m.get "Subject").getD "")
       then m.get "Subject"
       else some (("[" ++ t ++ "] ") ++ (m.get "Subject").getD "")) := by
  rw [mungeHeader_get_subject]
  simp only [subjectPrefixProcess]
  by_cases hst :
      strStartsWith ("[" ++ t ++ "] ") ((m.get "Subject").getD "") = true
  · simp [hst]
  · rw [Bool.not_eq_true] at hst
    simp [hst, get_setHeader_subject]

/-- C6: subject tagging is idempotent.  With a succeeding encoder the
rewrite prepends the bracketed tag exactly when the Subject does not
already start with it, leaves a Subject that does start with it unchanged,
and rewriting twice gives the same Subject as rewriting once; in
particular a Subject equal to `[tag] original` tagged with `tag` stays
unchanged (never double-bracketed). -/
theorem mungeHeader_subject_tagging_idempotent (cfg : Config)
    (t a : String) (m : Msg) :
    ((∀ s : String, m.get "Subject" = some s →
        strStartsWith ("[" ++ t ++ "] ") s = false →
        (mungeHeader Option.some cfg t a m).get "Subject" =
          some (("[" ++ t ++ "] ") ++ s)) ∧
     (∀ s : String, m.get "Subject" = some s →
        strStartsWith ("[" ++ t ++ "] ") s = true →
        (mungeHeader Option.some cfg t a m).get "Subject" = some s) ∧
     (mungeHeader Option.some cfg t a
         (mungeHeader Option.some cfg t a m)).get "Subject" =
       (mungeHeader Option.some cfg t a m).get "Subject") ∧
    (mungeHeader Option.some exampleConfig "tag" "a+b"
        (Msg.mk [("Subject", "[tag] original")] [])).get "Subject" =
      some "[tag] original" := by
  refine ⟨⟨?_, ?_, ?_⟩, ?_⟩
  · intro s hs hfalse
    rw [mungeHeader_some_get_subject, hs]
    simp [hfalse]
  · intro s hs htrue
    rw [mungeHeader_some_get_subject, hs]
    simp [htrue]
  · rw [mungeHeader_some_get_subject cfg t a
      (mungeHeader Option.some cfg t a m), mungeHeader_some_get_subject]
    by_cases h0 :
        strStartsWith ("[" ++ t ++ "] ") ((m.get "Subject").getD "") = true
    · simp [h0]
    · rw [Bool.not_eq_true] at h0
      simp [h0, strStartsWith_append]
  · decide

/-- Witness for C6: tagging a fresh Subject prepends the tag, via the
first conjunct of the idempotence theorem at a concrete message. -/
theorem mungeHeader_subject_tagging_idempotent_witness :
    (mungeHeader Option.some exampleConfig "tag" "a+b"
        (Msg.mk [("Subject", "original")] [])).get "Subject" =
      some (("[" ++ "tag" ++ "] ") ++ "original") :=
  ((mungeHeader_subject_tagging_idempotent exampleConfig "tag" "a+b"
      (Msg.mk [("Subject", "original")] [])).1).1 "original" rfl (by decide)

/-- C8: if encoding the new tagged Subject fails, tagging is skipped
silently: the original Subject is kept, the rewrite does not fail, the
Precedence/List-Id/List-Post mutations are still applied, and the message
is still dispatched (sendmail is still called exactly once). -/
theorem mungeHeader_encoding_failure_keeps_subject
    (enc : String → Option String) (cfg : Config) (t a : String) (m : Msg)
    (hfail : enc (("[" ++ t ++ "] ") ++ (m.get "Subject").getD "") = none) :
    (mungeHeader enc cfg t a m).get "Subject" = m.get "Subject" ∧
    (mungeHeader enc cfg t a m).getAll "List-Id" =
      ["<" ++ a ++ ".mailingset." ++ cfg.domain ++ ">"] ∧
    (mungeHeader enc cfg t a m).getAll "List-Post" =
      ["<mailto:" ++ a ++ "@" ++ cfg.domain ++ ">"] ∧
    (m.hasHeader "precedence" = false →
      (mungeHeader enc cfg t a m).get "Precedence" = some "list") ∧
    ∀ (s : SetMsgState) (store : Store),
      (eomReceived cfg enc s store).sends.length = 1 := by
  have hm1 : (match subjectPrefixProcess enc ("[" ++ t ++ "] ") m with
      | .ok mtagged => mtagged
      | .error _ => m) = m := by
    simp only [subjectPrefixProcess]
    by_cases hst :
        strStartsWith ("[" ++ t ++ "] ") ((m.get "Subject").getD "") = true
    · simp [hst]
    · rw [Bool.not_eq_true] at hst
      simp [hst, hfail]
  refine ⟨?_, mungeHeader_getAll_listid enc cfg t a m,
    mungeHeader_getAll_listpost enc cfg t a m, ?_, ?_⟩
  · rw [mungeHeader_get_subject, hm1]
  · intro hpre
    have hmunge : mungeHeader enc cfg t a m =
        ((((m.add "Precedence" "list").delete "list-id").add "List-Id"
            ("<" ++ a ++ ".mailingset." ++ cfg.domain ++ ">")).delete
          "list-post").add "List-Post"
            ("<mailto:" ++ a ++ "@" ++ cfg.domain ++ ">") := by
      simp only [mungeHeader, hm1, hpre]
      rw [if_neg (by simp [hpre])]
    rw [hmunge]
    apply get_eq_of_getAll_eq (n := "Precedence") ?heq |>.trans ?hval
    case heq =>
      exact getAll_listops _ _ _ _ (by decide)
        (fun s hs => by rw [beq_iff_eq] at hs; subst hs; decide) (by decide)
        (fun s hs => by rw [beq_iff_eq] at hs; subst hs; decide)
    case hval =>
      rw [Msg.get, getAll_add_same _ _ _ _ (by decide),
        getAll_of_hasHeader_false m "Precedence" (by
          rw [Msg.hasHeader]
          rw [Msg.hasHeader] at hpre
          convert hpre using 2)]
      rfl
  · intro s store
    cases harch : cfg.archive_addr <;> simp [eomReceived, harch]

/-- Witness for C8: a concrete encoder that always fails, applied to a
concrete message. -/
theorem mungeHeader_encoding_failure_keeps_subject_witness :
    (mungeHeader (fun _ => none) exampleConfig "tag" "a+b"
        (Msg.mk [("Subject", "original")] [])).get "Subject" =
      (Msg.mk [("Subject", "original")] [] : Msg).get "Subject" ∧
    (mungeHeader (fun _ => none) exampleConfig "tag" "a+b"
        (Msg.mk [("Subject", "original")] [])).getAll "List-Id" =
      ["<" ++ "a+b" ++ ".mailingset." ++ exampleConfig.domain ++ ">"] ∧
    (mungeHeader (fun _ => none) exampleConfig "tag" "a+b"
        (Msg.mk [("Subject", "original")] [])).get "Precedence" =
      some "list" ∧
    (eomReceived exampleConfig (fun _ => none)
        (SetMessage.init "a+b" "tag" 0) exampleStore).sends.length = 1 := by
  have h := mungeHeader_encoding_failure_keeps_subject (fun _ => none)
    exampleConfig "tag" "a+b" (Msg.mk [("Subject", "original")] []) rfl
  exact ⟨h.1, h.2.1, h.2.2.2.1 rfl,
    h.2.2.2.2 (SetMessage.init "a+b" "tag" 0) exampleStore⟩

/-- Witness for C5 at a concrete configuration, accumulator and heap. -/
theorem eomReceived_recipient_finalization_witness :
    (eomReceived archiveConfig Option.some (SetMessage.init "a+b" "a+b" 0)
        exampleStore).sends.map SendCall.recipients =
      [exampleStore.get (SetMessage.init "a+b" "a+b" 0).recipientRef ∪
        {"archive@x.com"}] :=
  (eomReceived_recipient_finalization archiveConfig Option.some
      (SetMessage.init "a+b" "a+b" 0) exampleStore).1 "archive@x.com" rfl

end Mailingset
